import Mathlib

/-!
Verification of the ForgeIO gateway server core (Rust) against its
natural-language specification, via a shallow embedding in Lean 4.

The embedding translates, from the repository sources:
  * `src/tags/structures.rs`  — `Quality`, `ValueVariant`, `TagValue`, `Tag`,
    `TagMetadata`;
  * `src/tags/engine.rs`      — the `TagEngine` point table (a `DashMap` is
    modelled as an association list keyed by tag path);
  * `src/drivers/traits.rs`   — `DriverConfig`, `TagRequest`;
  * `src/drivers/opcua.rs`    — value conversion, node-id handling, the
    connect retry loop, `read_tags`, `write_tags`, `disconnect`;
  * `src/config/settings.rs`  — `TagConfig`, `Settings`;
  * `src/main.rs`             — driver initialization, the polling scheduler
    tick, the `update_config` HTTP handler.

Rust machine integers are modelled as `Nat`/`Int` (no arithmetic in the
embedded code overflows at the claimed inputs); `f64` configuration values
are modelled as exact rationals `ℚ`; fallible operations return `Except`.
External library calls (the OPC UA session, the file system) enter as
explicit function parameters, so every embedded operation is a pure,
executable function.
-/

namespace ForgeIO

/-- Quality of a tag value (`structures.rs`, enum `Quality`). -/
inductive Quality where
  | Good
  | Uncertain
  | Bad
  | Initializing
  | CommFailure
  | ConfigError
  deriving DecidableEq, Repr

/-- Payload of a tag value (`structures.rs`, enum `ValueVariant`). -/
inductive ValueVariant where
  | Null
  | Bool (b : Bool)
  | Int (i : Int)
  | UInt (u : Nat)
  | Float (f : ℚ)
  | String (s : String)
  deriving DecidableEq, Repr

/-- A tag value: payload, quality and a millisecond Unix timestamp
(`structures.rs`, struct `TagValue`). -/
structure TagValue where
  value : ValueVariant
  quality : Quality
  timestamp : Nat
  deriving DecidableEq, Repr

/-- `TagValue::new` stamps the current wall clock; the clock enters the
embedding as the explicit parameter `now`. -/
def TagValue.new (value : ValueVariant) (quality : Quality) (now : Nat) : TagValue :=
  ⟨value, quality, now⟩

/-- `TagValue::bad` (`structures.rs`): payload `Null` with the given quality. -/
def TagValue.bad (reason : Quality) (now : Nat) : TagValue :=
  TagValue.new ValueVariant.Null reason now

/-- Tag metadata (`structures.rs`, struct `TagMetadata`); `f64` ranges are
modelled as rationals. -/
structure TagMetadata where
  description : Option String
  eng_unit : Option String
  eng_low : Option ℚ
  eng_high : Option ℚ
  writable : Bool
  deriving DecidableEq, Repr

/-- A registered tag (`structures.rs`, struct `Tag`). -/
structure Tag where
  path : String
  value : TagValue
  driver_id : String
  driver_address : String
  poll_rate_ms : Nat
  metadata : TagMetadata
  deriving DecidableEq, Repr

/-- A read request carrying a protocol address (`traits.rs`, `TagRequest`). -/
structure TagRequest where
  address : String
  deriving DecidableEq, Repr

/-- Driver configuration (`traits.rs`, struct `DriverConfig`); the `f64`
backoff factor is modelled as a rational. -/
structure DriverConfig where
  id : String
  name : String
  address : String
  scan_rate_ms : Nat
  application_name : Option String
  application_uri : Option String
  session_name : Option String
  max_message_size : Option Nat
  max_chunk_count : Option Nat
  connect_retry_attempts : Option Nat
  connect_retry_delay_ms : Option Nat
  connect_retry_backoff : Option ℚ
  connect_timeout_ms : Option Nat
  deriving DecidableEq, Repr

/-- Tag configuration (`settings.rs`, struct `TagConfig`). -/
structure TagConfig where
  path : String
  driver_id : String
  address : String
  poll_rate_ms : Nat
  deriving DecidableEq, Repr

/-- Settings: devices plus tags (`settings.rs`, struct `Settings`). -/
structure Settings where
  devices : List DriverConfig
  tags : List TagConfig
  deriving DecidableEq, Repr

/-! ## Hash-map model

Rust's `HashMap<String, V>` (and the `DashMap` of the tag engine) is
modelled as an association list with unique keys.  `alInsert` is
`HashMap::insert`: it replaces the value of an existing key in place and
appends a fresh key, so keys stay distinct. -/

/-- `HashMap::insert` on the association-list model: overwrite the entry of
an existing key, append a new entry otherwise. -/
def alInsert {V : Type} : List (String × V) → String → V → List (String × V)
  | [], k, v => [(k, v)]
  | (k', v') :: rest, k, v =>
    if k' = k then (k, v) :: rest else (k', v') :: alInsert rest k v

/-- `HashMap::get` on the association-list model. -/
def alLookup {V : Type} : List (String × V) → String → Option V
  | [], _ => none
  | (k', v') :: rest, k => if k' = k then some v' else alLookup rest k

theorem alLookup_alInsert {V : Type} (m : List (String × V)) (k : String) (v : V)
    (k' : String) :
    alLookup (alInsert m k v) k' = if k' = k then some v else alLookup m k' := by
  induction m with
  | nil =>
    by_cases h : k' = k
    · subst h; simp [alInsert, alLookup]
    · have h' : ¬ k = k' := fun hh => h hh.symm
      simp [alInsert, alLookup, h, h']
  | cons e rest ih =>
    obtain ⟨ek, ev⟩ := e
    by_cases h1 : ek = k
    · subst h1
      by_cases h2 : k' = ek
      · subst h2; simp [alInsert, alLookup]
      · have h2' : ¬ ek = k' := fun hh => h2 hh.symm
        simp [alInsert, alLookup, h2, h2']
    · by_cases h2 : ek = k'
      · have h3 : ¬ k' = k := fun hh => h1 (h2.trans hh)
        simp [alInsert, h1, alLookup, h2, h3]
      · simp [alInsert, h1, alLookup, h2, ih]

theorem alInsert_keys {V : Type} (m : List (String × V)) (k : String) (v : V) :
    (alInsert m k v).map Prod.fst =
      if k ∈ m.map Prod.fst then m.map Prod.fst else m.map Prod.fst ++ [k] := by
  induction m with
  | nil => simp [alInsert]
  | cons e rest ih =>
    obtain ⟨ek, ev⟩ := e
    by_cases h1 : ek = k
    · subst h1
      simp [alInsert]
    · have : ¬ k = ek := fun h => h1 h.symm
      by_cases h2 : k ∈ rest.map Prod.fst <;>
        simp [alInsert, h1, this, h2, ih]

theorem alInsert_keys_nodup {V : Type} (m : List (String × V)) (k : String) (v : V)
    (h : (m.map Prod.fst).Nodup) : ((alInsert m k v).map Prod.fst).Nodup := by
  rw [alInsert_keys]
  by_cases hk : k ∈ m.map Prod.fst
  · simpa [hk]
  · simpa [hk, List.nodup_append] using h

/-! ## PUT `/api/config` handler (`main.rs`, `update_config`)

The handler first persists the new `Settings` with `Settings::save` and only
then replaces the in-memory copy behind the settings lock.  Disk I/O enters
the embedding as the `save` parameter (the outcome of `Settings::save` on
the new value); the handler returns an HTTP status together with the
optional error message carried in the JSON body, and the new in-memory
`Settings`. -/

def update_config (save : Settings → Except String Unit) (mem : Settings)
    (new_cfg : Settings) : (Nat × Option String) × Settings :=
  match save new_cfg with
  | Except.error e => ((500, some e), mem)
  | Except.ok _ => ((200, none), new_cfg)

/-! ## OPC UA protocol data (`drivers/opcua.rs`)

The OPC UA client library is external to the repository; its data shapes
enter the embedding as plain structures.  A `StatusCode` is abstracted to
the one bit the driver inspects (`status.is_good()`); a `Variant` carries
the constructors the driver matches on, plus representative unsupported
constructors covered by the catch-all arm. -/

structure StatusCode where
  is_good : Bool
  deriving DecidableEq, Repr

inductive Variant where
  | Empty
  | Boolean (b : Bool)
  | SByte (i : Int)
  | Byte (u : Nat)
  | Int16 (i : Int)
  | UInt16 (u : Nat)
  | Int32 (i : Int)
  | UInt32 (u : Nat)
  | Int64 (i : Int)
  | UInt64 (u : Nat)
  | Float (f : ℚ)
  | Double (d : ℚ)
  | String (s : String)
  | LocalizedText (locale : String) (text : String)
  | DateTime (ticks : Nat)
  | Guid (g : String)
  | ByteString (bytes : List Nat)
  deriving DecidableEq, Repr

/-- The variant kinds the driver's conversion maps to a payload; everything
else falls into the `_ => ValueVariant::Null` arm of
`data_value_to_tag_value`. -/
def Variant.supported : Variant → Bool
  | Variant.Boolean _ => true
  | Variant.SByte _ => true
  | Variant.Byte _ => true
  | Variant.Int16 _ => true
  | Variant.UInt16 _ => true
  | Variant.Int32 _ => true
  | Variant.UInt32 _ => true
  | Variant.Int64 _ => true
  | Variant.UInt64 _ => true
  | Variant.Float _ => true
  | Variant.Double _ => true
  | Variant.String _ => true
  | Variant.LocalizedText _ _ => true
  | _ => false

/-- An OPC UA `DataValue` as the driver consumes it: optional status code
and optional value. -/
structure DataValue where
  status : Option StatusCode
  value : Option Variant
  deriving DecidableEq, Repr

/-- OPC UA node-id identifier kinds (external library type). -/
inductive Identifier where
  | Numeric (n : Nat)
  | StringId (s : String)
  | Guid (s : String)
  | ByteStr (s : String)
  deriving DecidableEq, Repr

/-- An OPC UA node id: namespace index plus identifier. -/
structure NodeId where
  namespaceIndex : Nat
  identifier : Identifier
  deriving DecidableEq, Repr

namespace OpcUaDriver

/-- `OpcUaDriver::data_value_to_tag_value` (`drivers/opcua.rs`): quality is
derived from the status code alone (`Good` iff present and good); the
payload is mapped by variant kind, with unsupported kinds and absent values
giving `Null`. -/
def data_value_to_tag_value (dv : DataValue) (now : Nat) : TagValue :=
  let quality :=
    match dv.status with
    | some status => if status.is_good then Quality.Good else Quality.Bad
    | none => Quality.Bad
  let value_variant :=
    match dv.value with
    | some variant =>
      match variant with
      | Variant.Boolean b => ValueVariant.Bool b
      | Variant.SByte i => ValueVariant.Int i
      | Variant.Byte u => ValueVariant.UInt u
      | Variant.Int16 i => ValueVariant.Int i
      | Variant.UInt16 u => ValueVariant.UInt u
      | Variant.Int32 i => ValueVariant.Int i
      | Variant.UInt32 u => ValueVariant.UInt u
      | Variant.Int64 i => ValueVariant.Int i
      | Variant.UInt64 u => ValueVariant.UInt u
      | Variant.Float f => ValueVariant.Float f
      | Variant.Double d => ValueVariant.Float d
      | Variant.String s => ValueVariant.String s
      | Variant.LocalizedText _ text => ValueVariant.String text
      | _ => ValueVariant.Null
    | none => ValueVariant.Null
  TagValue.new value_variant quality now

/-- Chars before the first `;` and, when a `;` exists, the chars after it. -/
def splitSemi : List Char → List Char × Option (List Char)
  | [] => ([], none)
  | c :: rest =>
    if c = ';' then ([], some rest)
    else
      let p := splitSemi rest
      (c :: p.1, p.2)

/-- Digit-string to `Nat`; fails on empty or non-digit input. -/
def parseNatChars (cs : List Char) : Option Nat :=
  if cs = [] then none
  else if cs.all Char.isDigit then
    some (cs.foldl (fun n c => n * 10 + (c.toNat - 48)) 0)
  else none

/-- Modelled from the spec: the node-id parser used by
`OpcUaDriver::parse_node_id` lives in the external OPC UA library
(`NodeId::from_str`), whose source is not part of the repository.  Per the
spec, addresses follow the grammar `ns=<u16>;(s|i|g|b)=<value>`; strings
without `;` or with unknown prefixes fail parsing. -/
def parse_node_id (s : String) : Except String NodeId :=
  let bad : Except String NodeId := Except.error ("Invalid NodeId: " ++ s)
  match splitSemi s.data with
  | (_, none) => bad
  | (nsPart, some idPart) =>
    match nsPart with
    | 'n' :: 's' :: '=' :: nsDigits =>
      match parseNatChars nsDigits with
      | none => bad
      | some ns =>
        if ns < 65536 then
          match idPart with
          | 'i' :: '=' :: ds =>
            match parseNatChars ds with
            | some n => Except.ok ⟨ns, Identifier.Numeric n⟩
            | none => bad
          | 's' :: '=' :: cs => Except.ok ⟨ns, Identifier.StringId (String.mk cs)⟩
          | 'g' :: '=' :: cs => Except.ok ⟨ns, Identifier.Guid (String.mk cs)⟩
          | 'b' :: '=' :: cs => Except.ok ⟨ns, Identifier.ByteStr (String.mk cs)⟩
          | _ => bad
        else bad
    | _ => bad

/-- The `for t in tags { read_ids.push(parse_node_id(&t.address)?) }` loop of
`read_tags`: the first parse failure aborts the whole call. -/
def buildReadIds : List TagRequest → Except String (List NodeId)
  | [] => Except.ok []
  | t :: rest =>
    match parse_node_id t.address with
    | Except.error e => Except.error e
    | Except.ok nid => (buildReadIds rest).map (fun ids => nid :: ids)

/-- `OpcUaDriver::read_tags` (`drivers/opcua.rs`).  The session handle and
the session's batched read are the driver's external state and enter as
parameters: `session` is the content of `self.session`, `sessionRead` the
behavior of `session.read` on the built node-id list.  The result map is
built by inserting one entry per request in order, keyed by address. -/
def read_tags (session : Option Unit)
    (sessionRead : List NodeId → Except String (List DataValue))
    (tags : List TagRequest) (now : Nat) :
    Except String (List (String × TagValue)) :=
  match session with
  | none => Except.error "not connected"
  | some _ =>
    match buildReadIds tags with
    | Except.error e => Except.error e
    | Except.ok read_ids =>
      match sessionRead read_ids with
      | Except.error e => Except.error ("read error: " ++ e)
      | Except.ok data_values =>
        Except.ok ((tags.zip data_values).foldl
          (fun result p => alInsert result p.1.address (data_value_to_tag_value p.2 now))
          [])

/-- `OpcUaDriver::write_tags` (`drivers/opcua.rs`): the Rust body is
`Ok(HashMap::new())` — it ignores its argument and returns an empty
success map. -/
def write_tags (_tags : List (String × TagValue)) :
    Except String (List (String × TagValue)) :=
  Except.ok []

/-! ### Connection state and the retry loop (`drivers/opcua.rs`)

`OpcUaDriver` holds `client: Mutex<Option<Client>>` and
`session: Mutex<Option<Arc<RwLock<Session>>>>`.  Only presence matters to
the claims, so handles are modelled as `Option Unit`. -/

structure DriverState where
  client : Option Unit
  session : Option Unit
  deriving DecidableEq, Repr

/-- `OpcUaDriver::new`: both handles start absent. -/
def new : DriverState := ⟨none, none⟩

/-- Outcome of one underlying connect attempt, covering the four arms of the
`match attempt_result` in `connect`: success, connect error inside the
blocking task, join error of the blocking task, and per-attempt timeout. -/
inductive AttemptOutcome where
  | ok
  | connectErr
  | joinErr
  | timedOut
  deriving DecidableEq, Repr

/-- `delay = (delay as f64 * backoff) as u64`: multiply by the backoff
factor and truncate toward zero (a negative product saturates to `0`, as the
Rust `as u64` cast does). -/
def backoffNext (backoff : ℚ) (delay : Nat) : Nat :=
  if backoff.num ≤ 0 then 0 else (delay * backoff.num.toNat) / backoff.den

/-- Observable trace of one `connect` call: the value of the `attempt`
counter at each underlying connect attempt, the argument of each `sleep`
performed between attempts, and whether the loop ended in `Ok`. -/
structure ConnectTrace where
  attemptNumbers : List Nat
  sleeps : List Nat
  succeeded : Bool
  deriving DecidableEq, Repr

/-- The `loop` of `OpcUaDriver::connect`: `outcome k` is what the `k`-th
underlying attempt does.  On success the loop returns `Ok`; on failure with
`attempt < max_retries` it sleeps for `delay` (when `delay > 0`), multiplies
`delay` by the backoff factor, increments `attempt` and retries; on failure
with `attempt = max_retries` it returns the error.  The first argument is
`max_retries - attempt`, the structural fuel of the loop. -/
def connect_loop (outcome : Nat → AttemptOutcome) (backoff : ℚ) :
    Nat → Nat → Nat → ConnectTrace
  | remaining, attempt, delay =>
    if outcome attempt = AttemptOutcome.ok then ⟨[attempt], [], true⟩
    else
      match remaining with
      | 0 => ⟨[attempt], [], false⟩
      | rem + 1 =>
        let delay' := if 0 < delay then backoffNext backoff delay else delay
        let tr := connect_loop outcome backoff rem (attempt + 1) delay'
        ⟨attempt :: tr.attemptNumbers,
         (if 0 < delay then [delay] else []) ++ tr.sleeps,
         tr.succeeded⟩

/-- `OpcUaDriver::connect`: early `Ok` when a client handle is already
present (no attempt made); otherwise run the retry loop with
`max_retries = connect_retry_attempts.unwrap_or(0)`,
`delay = connect_retry_delay_ms.unwrap_or(0)` and
`backoff = connect_retry_backoff.unwrap_or(2.0)`, and on loop success store
both handles.  Returns the new state, the `Result`, and the trace. -/
def connect (st : DriverState) (cfg : DriverConfig)
    (outcome : Nat → AttemptOutcome) : DriverState × Bool × ConnectTrace :=
  if st.client.isSome then (st, true, ⟨[], [], true⟩)
  else
    let max_retries := cfg.connect_retry_attempts.getD 0
    let delay := cfg.connect_retry_delay_ms.getD 0
    let backoff := cfg.connect_retry_backoff.getD (mkRat 2 1)
    let tr := connect_loop outcome backoff max_retries 0 delay
    if tr.succeeded then (⟨some (), some ()⟩, true, tr) else (st, false, tr)

/-- `OpcUaDriver::disconnect`: take the session handle out; if one was
present, tear it down on a blocking task — a join error there returns `Err`
before the client handle is cleared.  `joinOk` is whether that blocking
task joined normally. -/
def disconnect (st : DriverState) (joinOk : Bool) : DriverState × Bool :=
  match st.session with
  | none => (⟨none, none⟩, true)
  | some _ =>
    if joinOk then (⟨none, none⟩, true)
    else ({ client := st.client, session := none }, false)

/-- `OpcUaDriver::check_status`: `Ok` iff a session handle is present and
the session reports itself connected; the state is not mutated. -/
def check_status (st : DriverState) (sessionConnected : Bool) : Bool :=
  match st.session with
  | some _ => sessionConnected
  | none => false

end OpcUaDriver

/-! ## Tag engine (`tags/engine.rs`)

The `DashMap<String, Tag>` is modelled as an association list keyed by tag
path. -/

def TagEngine : Type := List (String × Tag)

namespace TagEngine

/-- `TagEngine::new`. -/
def new : TagEngine := []

/-- `TagEngine::register_tag`: insert keyed by `tag.path`, overwriting. -/
def register_tag (eng : TagEngine) (tag : Tag) : TagEngine :=
  alInsert eng tag.path tag

/-- `TagEngine::read_tag`: snapshot of a tag's value. -/
def read_tag (eng : TagEngine) (tag_path : String) : Option TagValue :=
  (alLookup eng tag_path).map (fun tag => tag.value)

/-- The effect of `tag_ref.value = new_value` through `get_mut`: replace the
value field of the (unique) entry with the given key, touching nothing
else. -/
def setValueAt : List (String × Tag) → String → TagValue → List (String × Tag)
  | [], _, _ => []
  | (k, t) :: rest, p, v =>
    if k = p then (k, { t with value := v }) :: rest
    else (k, t) :: setValueAt rest p v

/-- `TagEngine::update_tag_value`: replace the value of an existing tag,
returning whether the path was found; unknown paths are left untouched. -/
def update_tag_value (eng : TagEngine) (tag_path : String) (new_value : TagValue) :
    TagEngine × Bool :=
  match alLookup eng tag_path with
  | some _ => (setValueAt eng tag_path new_value, true)
  | none => (eng, false)

/-- `TagEngine::get_tag_details`: deep copy of a tag. -/
def get_tag_details (eng : TagEngine) (tag_path : String) : Option Tag :=
  alLookup eng tag_path

/-- `TagEngine::find_path_by_address`: first entry matching driver id and
address. -/
def find_path_by_address (eng : TagEngine) (driver_id address : String) : Option String :=
  (eng.find? (fun e => e.2.driver_id = driver_id ∧ e.2.driver_address = address)).map
    (fun e => e.1)

end TagEngine

/-! ## Poll scheduler (`main.rs`, polling task) -/

namespace Scheduler

/-- `last_poll_times.entry(..).or_insert(Instant::now() - Duration::from_secs(60))`:
a group first seen at instant `now` gets a last-poll time 60 seconds in the
past.  Instants are milliseconds; `Instant` subtraction here never
underflows for the wall clocks considered (`now ≥ 60000`). -/
def initialLastPoll (now : Nat) : Nat := now - 60000

/-- `now.duration_since(*last_poll) >= poll_duration`: the due test of the
tick loop (`duration_since` saturates at zero). -/
def isDue (now last_poll poll_rate_ms : Nat) : Bool := poll_rate_ms ≤ now - last_poll

/-- The request-gathering loop of a due group: look each path up in the
point table and keep the addresses of those still registered. -/
def gatherRequests (eng : TagEngine) (tag_paths : List String) : List TagRequest :=
  tag_paths.filterMap
    (fun path => (TagEngine.get_tag_details eng path).map (fun tag => ⟨tag.driver_address⟩))

/-- Application of a successful batched read: for every returned
(address, value) pair, map the address back to a path and update it. -/
def applyResults (driver_id : String) (eng : TagEngine)
    (results : List (String × TagValue)) : TagEngine :=
  results.foldl
    (fun e r =>
      match TagEngine.find_path_by_address e driver_id r.1 with
      | some path => (TagEngine.update_tag_value e path r.2).1
      | none => e)
    eng

/-- The error arm of the read: set every tag path of the group to
`TagValue::bad(Quality::Bad)`. -/
def markGroupBad (eng : TagEngine) (tag_paths : List String) (now : Nat) : TagEngine :=
  tag_paths.foldl
    (fun e path => (TagEngine.update_tag_value e path (TagValue.bad Quality.Bad now)).1)
    eng

/-- Body of one tick for one poll group (`main.rs` lines 149–214): when the
group is due, gather requests, issue the batched read when the driver
exists and the request list is non-empty, fold the outcome into the point
table, and advance `last_poll` to `now` regardless of the outcome.  The
driver's read enters as the `read` parameter; `driverPresent` is whether
`polling_drivers.get(driver_id)` finds the driver. -/
def tickGroup (eng : TagEngine) (driverPresent : Bool)
    (read : List TagRequest → Except String (List (String × TagValue)))
    (driver_id : String) (poll_rate_ms : Nat) (tag_paths : List String)
    (last_poll now : Nat) : TagEngine × Nat :=
  if isDue now last_poll poll_rate_ms then
    let eng' :=
      if driverPresent then
        let requests := gatherRequests eng tag_paths
        if requests ≠ [] then
          match read requests with
          | Except.ok results => applyResults driver_id eng results
          | Except.error _ => markGroupBad eng tag_paths now
        else eng
      else eng
    (eng', now)
  else (eng, last_poll)

end Scheduler

/-! ## Driver initialization at startup (`main.rs` lines 55–82)

For every configured device a driver is constructed and connected; the `?`
on the connect result propagates the first failure out of `main`.  The
outcome of each driver's `connect` enters as the `connectResult`
parameter. -/

def initDrivers (devices : List DriverConfig)
    (connectResult : DriverConfig → Except String Unit) :
    Except String (List (String × DriverConfig)) :=
  match devices with
  | [] => Except.ok []
  | cfg :: rest =>
    match connectResult cfg with
    | Except.error e => Except.error ("Failed to connect OPC UA driver: " ++ e)
    | Except.ok _ =>
      (initDrivers rest connectResult).map (fun m => (cfg.id, cfg) :: m)

/-! ## Sample configurations used by witnesses and counterexamples -/

/-- A device configuration with explicit retry tuning. -/
def sampleDriverConfig : DriverConfig :=
  { id := "opcua1", name := "Primary", address := "opc.tcp://127.0.0.1:9999/",
    scan_rate_ms := 1000, application_name := none, application_uri := none,
    session_name := none, max_message_size := none, max_chunk_count := none,
    connect_retry_attempts := some 3, connect_retry_delay_ms := some 100,
    connect_retry_backoff := some (mkRat 3 2), connect_timeout_ms := some 500 }

/-- Retry configuration for the C1 counterexample: 3 retries, 5 ms delay,
backoff 1.1. -/
def cexDriverConfig : DriverConfig :=
  { sampleDriverConfig with
    connect_retry_attempts := some 3, connect_retry_delay_ms := some 5,
    connect_retry_backoff := some (mkRat 11 10) }

/-- Retry configuration for the C1 witness: 1 retry, 4 ms delay,
backoff 1.5. -/
def witDriverConfig : DriverConfig :=
  { sampleDriverConfig with
    connect_retry_attempts := some 1, connect_retry_delay_ms := some 4,
    connect_retry_backoff := some (mkRat 3 2) }

/-- An attempt oracle on which every underlying connect attempt fails. -/
def allFailOutcome : Nat → OpcUaDriver.AttemptOutcome :=
  fun _ => OpcUaDriver.AttemptOutcome.connectErr

/-- A session read that always succeeds, answering every requested node with
a good boolean value: a healthy session. -/
def alwaysOkRead : List NodeId → Except String (List DataValue) :=
  fun ids => Except.ok (ids.map (fun _ => ⟨some ⟨true⟩, some (Variant.Boolean true)⟩))

/-! ## C3 — PUT `/api/config` atomicity -/

/-- C3: for every PUT `/api/config` request, a failed persistence returns
status 500 carrying the error message and leaves the in-memory `Settings`
unchanged, while a successful persistence replaces the in-memory `Settings`
with the new value (status 200). -/
theorem update_config_atomicity (save : Settings → Except String Unit)
    (mem new_cfg : Settings) :
    (∀ e, save new_cfg = Except.error e →
      update_config save mem new_cfg = ((500, some e), mem)) ∧
    (save new_cfg = Except.ok () →
      update_config save mem new_cfg = ((200, none), new_cfg)) := by
  constructor
  · intro e h
    simp [update_config, h]
  · intro h
    simp [update_config, h]

theorem update_config_atomicity_witness :
    update_config (fun _ => Except.error "permission denied") ⟨[], []⟩
        ⟨[], [⟨"Plant/T", "opcua1", "ns=2;s=T", 1000⟩]⟩
      = ((500, some "permission denied"), ⟨[], []⟩) ∧
    update_config (fun _ => Except.ok ()) ⟨[], []⟩
        ⟨[], [⟨"Plant/T", "opcua1", "ns=2;s=T", 1000⟩]⟩
      = ((200, none), ⟨[], [⟨"Plant/T", "opcua1", "ns=2;s=T", 1000⟩]⟩) :=
  ⟨(update_config_atomicity (fun _ => Except.error "permission denied") ⟨[], []⟩
      ⟨[], [⟨"Plant/T", "opcua1", "ns=2;s=T", 1000⟩]⟩).1 "permission denied" rfl,
   (update_config_atomicity (fun _ => Except.ok ()) ⟨[], []⟩
      ⟨[], [⟨"Plant/T", "opcua1", "ns=2;s=T", 1000⟩]⟩).2 rfl⟩

/-! ## C9 — `write_tags` -/

/-- C9: contrary to the specified first-release behavior (reject with
"not implemented"), `OpcUaDriver::write_tags` returns success — the empty
map — for every request, here evaluated at a concrete one-tag write. -/
theorem write_tags_silently_succeeds :
    OpcUaDriver.write_tags
        [("ns=2;s=Temperature", TagValue.new (ValueVariant.Bool true) Quality.Good 0)]
      = Except.ok [] ∧
    (OpcUaDriver.write_tags
        [("ns=2;s=Temperature", TagValue.new (ValueVariant.Bool true) Quality.Good 0)]).isOk
      = true :=
  ⟨rfl, rfl⟩

/-! ## C7 — connect failure at startup -/

/-- C7: contrary to the spec (driver skipped, startup continues), a driver
whose `connect` exhausts its retries aborts startup: the `?` in `main`'s
driver-initialization loop propagates the failure, so no driver registry is
produced at all — evaluated at a one-device configuration whose connect
fails. -/
theorem connect_failure_aborts_startup :
    initDrivers [sampleDriverConfig]
        (fun _ => Except.error "connection attempt timed out after 500 ms")
      = Except.error
          "Failed to connect OPC UA driver: connection attempt timed out after 500 ms" ∧
    (initDrivers [sampleDriverConfig]
        (fun _ => Except.error "connection attempt timed out after 500 ms")).isOk
      = false :=
  ⟨rfl, rfl⟩

/-! ## C4 — first-tick polling -/

/-- C4 counterexample: the sentinel initial `last_poll` is only 60 s in the
past, so a group with `poll_rate_ms = 120000` is NOT due on the scheduler's
first tick (wall clock 1 000 000 ms), contradicting "polled on the first
tick regardless of `poll_rate_ms`". -/
theorem first_tick_skips_large_poll_rate :
    Scheduler.isDue 1000000 (Scheduler.initialLastPoll 1000000) 120000 = false ∧
    Scheduler.tickGroup [] true (fun _ => Except.error "io") "opcua1" 120000 []
        (Scheduler.initialLastPoll 1000000) 1000000
      = ([], Scheduler.initialLastPoll 1000000) := by
  exact ⟨rfl, rfl⟩

/-- C4 (amended): a poll group first seen at wall clock `now` is due on the
first tick iff its poll rate is at most the 60 000 ms sentinel offset;
larger poll rates are not polled on the first tick. -/
theorem first_tick_due_iff_rate_le_sentinel (now poll_rate_ms : Nat)
    (h : 60000 ≤ now) :
    Scheduler.isDue now (Scheduler.initialLastPoll now) poll_rate_ms
      = decide (poll_rate_ms ≤ 60000) := by
  have hsub : now - Scheduler.initialLastPoll now = 60000 := by
    unfold Scheduler.initialLastPoll
    omega
  unfold Scheduler.isDue
  rw [hsub]

theorem first_tick_due_iff_rate_le_sentinel_witness :
    (60000 ≤ 1000000 ∧
      Scheduler.isDue 1000000 (Scheduler.initialLastPoll 1000000) 60000
        = decide (60000 ≤ 60000)) ∧
    Scheduler.isDue 1000000 (Scheduler.initialLastPoll 1000000) 1000 = true :=
  ⟨⟨by decide, first_tick_due_iff_rate_le_sentinel 1000000 60000 (by decide)⟩,
   (first_tick_due_iff_rate_le_sentinel 1000000 1000 (by decide)).trans (by decide)⟩

/-! ## C6 — unsupported variant conversion -/

/-- C6 counterexample: an unsupported variant (`Variant::Empty`) whose data
value carries a GOOD status converts to `TagValue{Null, Good}` — the
quality is taken from the status code, not forced to `Bad` as the claim
states. -/
theorem unsupported_variant_good_status :
    OpcUaDriver.data_value_to_tag_value ⟨some ⟨true⟩, some Variant.Empty⟩ 0
      = TagValue.new ValueVariant.Null Quality.Good 0 ∧
    Quality.Good ≠ Quality.Bad :=
  ⟨rfl, by decide⟩

/-- C6 (amended): a data value whose variant kind is unsupported converts to
payload `Null`, with quality `Good` exactly when a good status code is
present and `Bad` otherwise (the quality follows the status code; it is not
`Bad` regardless). -/
theorem unsupported_variant_null_payload_status_quality
    (dv : DataValue) (v : Variant) (now : Nat)
    (hval : dv.value = some v) (hunsup : v.supported = false) :
    (OpcUaDriver.data_value_to_tag_value dv now).value = ValueVariant.Null ∧
    ((OpcUaDriver.data_value_to_tag_value dv now).quality = Quality.Good ↔
      ∃ st, dv.status = some st ∧ st.is_good = true) ∧
    ((OpcUaDriver.data_value_to_tag_value dv now).quality = Quality.Bad ↔
      ¬ ∃ st, dv.status = some st ∧ st.is_good = true) := by
  obtain ⟨status, value⟩ := dv
  cases hval
  refine ⟨?_, ?_, ?_⟩
  · cases v <;>
      first
      | rfl
      | exact absurd hunsup (by simp [Variant.supported])
  · cases status with
    | none => simp [OpcUaDriver.data_value_to_tag_value, TagValue.new]
    | some st =>
      cases hst : st.is_good <;>
        simp [OpcUaDriver.data_value_to_tag_value, TagValue.new, hst]
  · cases status with
    | none => simp [OpcUaDriver.data_value_to_tag_value, TagValue.new]
    | some st =>
      cases hst : st.is_good <;>
        simp [OpcUaDriver.data_value_to_tag_value, TagValue.new, hst]

theorem unsupported_variant_null_payload_status_quality_witness :
    (OpcUaDriver.data_value_to_tag_value ⟨some ⟨false⟩, some (Variant.Guid "g")⟩ 7).value
      = ValueVariant.Null ∧
    (OpcUaDriver.data_value_to_tag_value ⟨some ⟨false⟩, some (Variant.Guid "g")⟩ 7).quality
      = Quality.Bad :=
  ⟨(unsupported_variant_null_payload_status_quality ⟨some ⟨false⟩, some (Variant.Guid "g")⟩
      (Variant.Guid "g") 7 rfl rfl).1,
   (unsupported_variant_null_payload_status_quality ⟨some ⟨false⟩, some (Variant.Guid "g")⟩
      (Variant.Guid "g") 7 rfl rfl).2.2.mpr (by simp)⟩

/-! ## C8 — client/session handle consistency -/

/-- The claimed invariant: the client handle is present iff the session
handle is present. -/
def handles_consistent (st : OpcUaDriver.DriverState) : Prop :=
  st.client.isSome = st.session.isSome

/-- C8 counterexample: `disconnect` takes the session handle out first and
returns the join error before clearing the client handle, so from a
connected state a failing teardown join leaves the partial state
client-present / session-absent. -/
theorem disconnect_join_error_partial_state :
    (OpcUaDriver.disconnect ⟨some (), some ()⟩ false).1.client = some () ∧
    (OpcUaDriver.disconnect ⟨some (), some ()⟩ false).1.session = none ∧
    ¬ handles_consistent (OpcUaDriver.disconnect ⟨some (), some ()⟩ false).1 := by
  refine ⟨rfl, rfl, ?_⟩
  simp [handles_consistent, OpcUaDriver.disconnect]

/-- C8 (amended): construction and `connect` (all outcomes, including every
error return) preserve client-iff-session consistency, as does `disconnect`
whenever its teardown task joins normally (and trivially when no session is
present, where no teardown runs); `check_status` and `read_tags` do not
mutate the handles at all.  The sole exception is `disconnect`'s join-error
return from a state with a session present, which clears the session but
keeps the client handle. -/
theorem driver_handle_consistency (st : OpcUaDriver.DriverState)
    (cfg : DriverConfig) (outcome : Nat → OpcUaDriver.AttemptOutcome) :
    handles_consistent OpcUaDriver.new ∧
    (handles_consistent st → handles_consistent (OpcUaDriver.connect st cfg outcome).1) ∧
    (handles_consistent st → handles_consistent (OpcUaDriver.disconnect st true).1) ∧
    (st.session = none → ∀ joinOk, handles_consistent (OpcUaDriver.disconnect st joinOk).1) ∧
    (∀ s, st.session = some s →
      (OpcUaDriver.disconnect st false).1 = ⟨st.client, none⟩) := by
  obtain ⟨client, session⟩ := st
  refine ⟨rfl, ?_, ?_, ?_, ?_⟩
  · intro hinv
    unfold OpcUaDriver.connect
    dsimp only
    split
    · exact hinv
    · split
      · simp [handles_consistent]
      · exact hinv
  · intro hinv
    cases session <;> simp [OpcUaDriver.disconnect, handles_consistent]
  · intro hs joinOk
    cases hs
    simp [OpcUaDriver.disconnect, handles_consistent]
  · intro s hs
    cases hs
    simp [OpcUaDriver.disconnect]

theorem driver_handle_consistency_witness :
    handles_consistent (⟨none, none⟩ : OpcUaDriver.DriverState) ∧
    handles_consistent
      (OpcUaDriver.connect ⟨none, none⟩ sampleDriverConfig allFailOutcome).1 ∧
    (OpcUaDriver.disconnect ⟨some (), some ()⟩ false).1
      = (⟨some (), none⟩ : OpcUaDriver.DriverState) :=
  ⟨(driver_handle_consistency ⟨none, none⟩ sampleDriverConfig allFailOutcome).1,
   (driver_handle_consistency ⟨none, none⟩ sampleDriverConfig allFailOutcome).2.1 rfl,
   (driver_handle_consistency ⟨some (), some ()⟩ sampleDriverConfig allFailOutcome).2.2.2.2
     () rfl⟩

/-! ## C2 — read failure marks the whole group Bad -/

theorem alLookup_setValueAt (eng : List (String × Tag)) (q : String) (v : TagValue)
    (p : String) :
    alLookup (TagEngine.setValueAt eng q v) p
      = if p = q then (alLookup eng p).map (fun t => { t with value := v })
        else alLookup eng p := by
  induction eng with
  | nil => by_cases hpq : p = q <;> simp [TagEngine.setValueAt, alLookup, hpq]
  | cons e rest ih =>
    obtain ⟨ek, et⟩ := e
    by_cases h1 : ek = q
    · subst h1
      by_cases h2 : ek = p
      · subst h2
        simp [TagEngine.setValueAt, alLookup]
      · have h2' : ¬ p = ek := fun hh => h2 hh.symm
        simp [TagEngine.setValueAt, alLookup, h2, h2']
    · by_cases h2 : ek = p
      · subst h2
        simp [TagEngine.setValueAt, alLookup, h1]
      · simp [TagEngine.setValueAt, alLookup, h1, h2, ih]

theorem lookup_update_tag_value (eng : TagEngine) (q : String) (v : TagValue)
    (p : String) :
    alLookup (TagEngine.update_tag_value eng q v).1 p
      = if p = q then (alLookup eng p).map (fun t => { t with value := v })
        else alLookup eng p := by
  unfold TagEngine.update_tag_value
  cases hq : alLookup eng q with
  | some t => simpa using alLookup_setValueAt eng q v p
  | none =>
    by_cases hpq : p = q
    · subst hpq
      simp [hq]
    · simp [hpq]

theorem lookup_markGroupBad (tag_paths : List String) (eng : TagEngine) (now : Nat)
    (p : String) :
    alLookup (Scheduler.markGroupBad eng tag_paths now) p
      = if p ∈ tag_paths then
          (alLookup eng p).map (fun t => { t with value := TagValue.bad Quality.Bad now })
        else alLookup eng p := by
  induction tag_paths generalizing eng with
  | nil => simp [Scheduler.markGroupBad]
  | cons q rest ih =>
    have hstep : Scheduler.markGroupBad eng (q :: rest) now
        = Scheduler.markGroupBad
            (TagEngine.update_tag_value eng q (TagValue.bad Quality.Bad now)).1 rest now := by
      simp [Scheduler.markGroupBad]
    rw [hstep, ih, lookup_update_tag_value]
    by_cases hpr : p ∈ rest
    · by_cases hpq : p = q
      · subst hpq
        simp only [hpr, if_pos, List.mem_cons, true_or, or_true, if_true]
        cases alLookup eng p <;> simp
      · simp [hpr, hpq]
    · by_cases hpq : p = q
      · subst hpq
        simp [hpr]
      · simp [hpr, hpq]

/-- C2: on a scheduler tick where poll group G is due, `last_poll` is
advanced to the tick's `now` regardless of the read outcome, and when the
batched read for G fails, every tag path of G still registered in the point
table has its value set (via `update_tag_value`) to `TagValue{Null, Bad}`
stamped `now`. -/
theorem tick_read_failure_marks_group_bad (eng : TagEngine) (present : Bool)
    (read : List TagRequest → Except String (List (String × TagValue)))
    (driver_id : String) (poll_rate_ms : Nat) (tag_paths : List String)
    (last_poll now : Nat)
    (hdue : Scheduler.isDue now last_poll poll_rate_ms = true) :
    ((Scheduler.tickGroup eng present read driver_id poll_rate_ms tag_paths
        last_poll now).2 = now) ∧
    (∀ e, read (Scheduler.gatherRequests eng tag_paths) = Except.error e →
      Scheduler.gatherRequests eng tag_paths ≠ [] →
      ∀ p ∈ tag_paths,
        alLookup (Scheduler.tickGroup eng true read driver_id poll_rate_ms tag_paths
            last_poll now).1 p
          = (alLookup eng p).map
              (fun t => { t with value := TagValue.bad Quality.Bad now })) := by
  constructor
  · simp [Scheduler.tickGroup, hdue]
  · intro e hread hne p hp
    have h1 : Scheduler.tickGroup eng true read driver_id poll_rate_ms tag_paths
          last_poll now
        = (Scheduler.markGroupBad eng tag_paths now, now) := by
      simp [Scheduler.tickGroup, hdue, hne, hread]
    rw [h1]
    simp [lookup_markGroupBad, hp]

/-- Registered tag used by the C2 witness. -/
def witTagA : Tag :=
  { path := "Plant/A", value := TagValue.new ValueVariant.Null Quality.Bad 0,
    driver_id := "opcua1", driver_address := "ns=2;s=A", poll_rate_ms := 1000,
    metadata := ⟨none, none, none, none, false⟩ }

/-- Second registered tag used by the C2 witness. -/
def witTagB : Tag :=
  { path := "Plant/B", value := TagValue.new (ValueVariant.Int 3) Quality.Good 0,
    driver_id := "opcua1", driver_address := "ns=2;s=B", poll_rate_ms := 1000,
    metadata := ⟨none, none, none, none, false⟩ }

/-- Point table used by the C2 witness. -/
def witEngine : TagEngine := [("Plant/A", witTagA), ("Plant/B", witTagB)]

/-- A driver read that fails every batch: a dead session. -/
def failRead : List TagRequest → Except String (List (String × TagValue)) :=
  fun _ => Except.error "read error: BadCommunicationError"

theorem tick_read_failure_marks_group_bad_witness :
    Scheduler.isDue 100000 40000 1000 = true ∧
    (Scheduler.tickGroup witEngine true failRead "opcua1" 1000 ["Plant/A", "Plant/B"]
        40000 100000).2 = 100000 ∧
    alLookup (Scheduler.tickGroup witEngine true failRead "opcua1" 1000
        ["Plant/A", "Plant/B"] 40000 100000).1 "Plant/A"
      = some { witTagA with value := TagValue.bad Quality.Bad 100000 } ∧
    alLookup (Scheduler.tickGroup witEngine true failRead "opcua1" 1000
        ["Plant/A", "Plant/B"] 40000 100000).1 "Plant/B"
      = some { witTagB with value := TagValue.bad Quality.Bad 100000 } := by
  have h := tick_read_failure_marks_group_bad witEngine true failRead "opcua1" 1000
    ["Plant/A", "Plant/B"] 40000 100000 (by decide)
  have hA := h.2 "read error: BadCommunicationError" rfl (by decide) "Plant/A" (by simp)
  have hB := h.2 "read error: BadCommunicationError" rfl (by decide) "Plant/B" (by simp)
  refine ⟨by decide, h.1, ?_, ?_⟩
  · rw [hA]; rfl
  · rw [hB]; rfl

/-! ## C5 — whole-batch failure conditions of `read_tags` -/

/-- C5 counterexample: with a session present and a session read that
always succeeds (a healthy session), `read_tags` for the single address
`"nonsense"` still fails as a whole, because the address fails node-id
parsing — so session failure is not the only condition failing the whole
batch. -/
theorem read_tags_fails_despite_healthy_session :
    OpcUaDriver.read_tags (some ()) alwaysOkRead [⟨"nonsense"⟩] 0
      = Except.error "Invalid NodeId: nonsense" ∧
    (∀ ids, (alwaysOkRead ids).isOk = true) :=
  ⟨rfl, fun _ => rfl⟩

/-- C5 (amended): per-address bad status codes never fail a `read_tags`
call — a data value whose status is absent or not good converts to a
`TagValue` of quality `Bad` — and the whole batch fails exactly when the
session is absent, when some requested address fails node-id parsing, or
when the underlying session read fails. -/
theorem read_tags_failure_conditions (session : Option Unit)
    (sessionRead : List NodeId → Except String (List DataValue))
    (tags : List TagRequest) (now : Nat) :
    ((OpcUaDriver.read_tags session sessionRead tags now).isOk = true ↔
      (session.isSome = true ∧
        ∃ ids, OpcUaDriver.buildReadIds tags = Except.ok ids ∧
          (sessionRead ids).isOk = true)) ∧
    ((OpcUaDriver.buildReadIds tags).isOk = true ↔
      ∀ t ∈ tags, (OpcUaDriver.parse_node_id t.address).isOk = true) ∧
    (∀ dv : DataValue, (∀ st, dv.status = some st → st.is_good = false) →
      (OpcUaDriver.data_value_to_tag_value dv now).quality = Quality.Bad) := by
  refine ⟨?_, ?_, ?_⟩
  · cases session with
    | none => simp [OpcUaDriver.read_tags, Except.isOk, Except.toBool]
    | some u =>
      cases hids : OpcUaDriver.buildReadIds tags with
      | error e => simp [OpcUaDriver.read_tags, hids, Except.isOk, Except.toBool]
      | ok ids =>
        cases hr : sessionRead ids with
        | error e => simp [OpcUaDriver.read_tags, hids, hr, Except.isOk, Except.toBool]
        | ok dvs => simp [OpcUaDriver.read_tags, hids, hr, Except.isOk, Except.toBool]
  · induction tags with
    | nil => simp [OpcUaDriver.buildReadIds, Except.isOk, Except.toBool]
    | cons t rest ih =>
      cases hp : OpcUaDriver.parse_node_id t.address with
      | error e =>
        have hfalse : (OpcUaDriver.buildReadIds (t :: rest)).isOk = false := by
          simp [OpcUaDriver.buildReadIds, hp, Except.isOk, Except.toBool]
        rw [hfalse]
        simp only [Bool.false_eq_true, false_iff]
        intro hall
        have ht := hall t (List.mem_cons_self t rest)
        rw [hp] at ht
        simp [Except.isOk, Except.toBool] at ht
      | ok nid =>
        have hok : (OpcUaDriver.buildReadIds (t :: rest)).isOk
            = (OpcUaDriver.buildReadIds rest).isOk := by
          cases hrest : OpcUaDriver.buildReadIds rest <;>
            simp [OpcUaDriver.buildReadIds, hp, hrest, Except.isOk, Except.toBool, Except.map]
        rw [hok, ih]
        constructor
        · intro hall t' ht'
          rcases List.mem_cons.mp ht' with h | h
          · subst h
            simp [hp, Except.isOk, Except.toBool]
          · exact hall t' h
        · intro hall t' ht'
          exact hall t' (List.mem_cons_of_mem t ht')
  · intro dv h
    obtain ⟨status, value⟩ := dv
    cases status with
    | none => simp [OpcUaDriver.data_value_to_tag_value, TagValue.new]
    | some st =>
      have hst := h st rfl
      simp [OpcUaDriver.data_value_to_tag_value, TagValue.new, hst]

theorem read_tags_failure_conditions_witness :
    (OpcUaDriver.read_tags (some ()) alwaysOkRead [⟨"ns=2;s=Temperature"⟩] 0).isOk
      = true ∧
    (OpcUaDriver.data_value_to_tag_value ⟨some ⟨false⟩, some (Variant.Int32 5)⟩ 0).quality
      = Quality.Bad := by
  have h := read_tags_failure_conditions (some ()) alwaysOkRead [⟨"ns=2;s=Temperature"⟩] 0
  constructor
  · exact h.1.mpr ⟨rfl, [⟨2, Identifier.StringId "Temperature"⟩], rfl, rfl⟩
  · exact h.2.2 ⟨some ⟨false⟩, some (Variant.Int32 5)⟩ (fun st hst => by cases hst; rfl)

/-! ## C1 — connect retry schedule -/

/-- The delay sequence the retry loop realises: start at the configured
delay and apply the truncating backoff multiplication once per retry. -/
def delaySeq (backoff : ℚ) (d : Nat) : Nat → Nat
  | 0 => d
  | k + 1 => OpcUaDriver.backoffNext backoff (delaySeq backoff d k)

theorem backoffNext_zero (b : ℚ) : OpcUaDriver.backoffNext b 0 = 0 := by
  unfold OpcUaDriver.backoffNext
  by_cases h : b.num ≤ 0 <;> simp [h]

theorem delay_step_eq (b : ℚ) (delay : Nat) :
    (if 0 < delay then OpcUaDriver.backoffNext b delay else delay)
      = OpcUaDriver.backoffNext b delay := by
  by_cases h : 0 < delay
  · simp [h]
  · have h0 : delay = 0 := by omega
    simp [h0, backoffNext_zero]

theorem delaySeq_succ_front (b : ℚ) (d : Nat) (k : Nat) :
    delaySeq b d (k + 1) = delaySeq b (OpcUaDriver.backoffNext b d) k := by
  induction k with
  | zero => rfl
  | succ k ih =>
    show OpcUaDriver.backoffNext b (delaySeq b d (k + 1))
        = OpcUaDriver.backoffNext b (delaySeq b (OpcUaDriver.backoffNext b d) k)
    rw [ih]

/-- The truncating backoff multiplication is exactly the floor of the exact
rational product, saturated at zero: `(delay as f64 * backoff) as u64`. -/
theorem backoffNext_eq_floor (b : ℚ) (d : Nat) :
    OpcUaDriver.backoffNext b d = (Int.floor ((d : ℚ) * b)).toNat := by
  unfold OpcUaDriver.backoffNext
  by_cases hb : b.num ≤ 0
  · have hb' : b ≤ 0 := Rat.num_nonpos.mp hb
    have hprod : (d : ℚ) * b ≤ 0 :=
      mul_nonpos_of_nonneg_of_nonpos (by positivity) hb'
    have hfl : Int.floor ((d : ℚ) * b) ≤ 0 := Int.floor_nonpos hprod
    rw [if_pos hb, Int.toNat_of_nonpos hfl]
  · push_neg at hb
    have hnum : (b.num.toNat : ℤ) = b.num := Int.toNat_of_nonneg hb.le
    have hr : ((d * b.num.toNat : ℕ) : ℚ) / ((b.den : ℕ) : ℚ) = (d : ℚ) * b := by
      push_cast
      rw [mul_div_assoc]
      congr 1
      have h1 : ((b.num.toNat : ℚ)) = ((b.num : ℚ)) := by
        exact_mod_cast congrArg (fun z : ℤ => (z : ℚ)) hnum
      rw [h1]
      exact Rat.num_div_den b
    rw [if_neg (not_le.mpr hb), Int.floor_toNat, ← hr, Nat.floor_div_nat, Nat.floor_natCast]

/-- When every attempt fails, the retry loop visits attempt counters
`attempt, attempt+1, …, attempt+rem`, sleeps the positive entries of the
truncated-backoff delay sequence, and ends in failure. -/
theorem connect_loop_all_fail (outcome : Nat → OpcUaDriver.AttemptOutcome) (b : ℚ)
    (hfail : ∀ k, outcome k ≠ OpcUaDriver.AttemptOutcome.ok) :
    ∀ rem attempt delay,
      OpcUaDriver.connect_loop outcome b rem attempt delay
        = ⟨List.range' attempt (rem + 1),
           ((List.range rem).map (delaySeq b delay)).filter (fun x => 0 < x),
           false⟩ := by
  intro rem
  induction rem with
  | zero =>
    intro attempt delay
    unfold OpcUaDriver.connect_loop
    rw [if_neg (hfail attempt)]
    simp [List.range']
  | succ rem ih =>
    intro attempt delay
    unfold OpcUaDriver.connect_loop
    rw [if_neg (hfail attempt)]
    simp only []
    rw [delay_step_eq, ih (attempt + 1) (OpcUaDriver.backoffNext b delay)]
    have hsleeps : ((List.range (rem + 1)).map (delaySeq b delay)).filter (fun x => 0 < x)
        = (if 0 < delay then [delay] else [])
          ++ ((List.range rem).map (delaySeq b (OpcUaDriver.backoffNext b delay))).filter
              (fun x => 0 < x) := by
      rw [List.range_succ_eq_map, List.map_cons, List.map_map, List.filter_cons]
      have hcomp : (delaySeq b delay) ∘ Nat.succ
          = delaySeq b (OpcUaDriver.backoffNext b delay) :=
        funext (fun i => delaySeq_succ_front b delay i)
      rw [hcomp]
      show (if (decide (0 < delaySeq b delay 0)) = true then _ else _) = _
      by_cases h : 0 < delay <;> simp [delaySeq, h]
    rw [hsleeps]
    simp [List.range'_succ]

/-- C1 (amended): for every `connect` from the disconnected state with
`connect_retry_attempts = N`, initial delay `d` and backoff `b`, if every
underlying attempt fails then `connect` returns an error after exactly
`N + 1` attempts, the attempt counter taking the values `0, 1, …, N`
(incremented after each failure), with `N = 0` meaning one attempt and no
sleep; the inter-attempt sleeps are the positive entries of the per-step
truncated geometric schedule `s₀ = d, sₖ₊₁ = ⌊sₖ · b⌋` (each sleep duration
is re-truncated to whole milliseconds before the next multiplication, and a
delay that reaches zero sleeps no more), and the driver state is left
unchanged. -/
theorem connect_retry_truncated_schedule (cfg : DriverConfig)
    (outcome : Nat → OpcUaDriver.AttemptOutcome) (N d : Nat) (b : ℚ)
    (hN : cfg.connect_retry_attempts = some N)
    (hd : cfg.connect_retry_delay_ms = some d)
    (hb : cfg.connect_retry_backoff = some b)
    (hfail : ∀ k, outcome k ≠ OpcUaDriver.AttemptOutcome.ok) :
    OpcUaDriver.connect OpcUaDriver.new cfg outcome
      = (OpcUaDriver.new, false,
         ⟨List.range (N + 1),
          ((List.range N).map (delaySeq b d)).filter (fun x => 0 < x),
          false⟩) ∧
    (∀ k, delaySeq b d (k + 1) = (Int.floor ((delaySeq b d k : ℚ) * b)).toNat) ∧
    (N = 0 → List.range (N + 1) = [0] ∧
      ((List.range N).map (delaySeq b d)).filter (fun x => 0 < x) = []) := by
  refine ⟨?_, ?_, ?_⟩
  · unfold OpcUaDriver.connect
    rw [if_neg (by simp [OpcUaDriver.new])]
    simp only [hN, hd, hb, Option.getD_some]
    rw [connect_loop_all_fail outcome b hfail N 0 d]
    simp [List.range_eq_range']
  · intro k
    show OpcUaDriver.backoffNext b (delaySeq b d k) = _
    exact backoffNext_eq_floor b (delaySeq b d k)
  · intro h
    subst h
    exact ⟨rfl, rfl⟩

theorem connect_retry_truncated_schedule_witness :
    (∀ k, allFailOutcome k ≠ OpcUaDriver.AttemptOutcome.ok) ∧
    OpcUaDriver.connect OpcUaDriver.new witDriverConfig allFailOutcome
      = (OpcUaDriver.new, false, ⟨[0, 1], [4], false⟩) := by
  have h := connect_retry_truncated_schedule witDriverConfig allFailOutcome 1 4 (mkRat 3 2)
    rfl rfl rfl (fun k => by simp [allFailOutcome])
  exact ⟨fun k => by simp [allFailOutcome], h.1.trans (by decide)⟩

/-- C1 counterexample: with `connect_retry_attempts = 3`, delay 5 ms and
backoff 1.1, every attempt failing, the sleeps are `[5, 5, 5]` — because
`⌊5 · 1.1⌋ = 5` is re-truncated at every step — whereas the claimed exact
geometric schedule has second entry `5 · 1.1 = 5.5 ≠ 5` and (even rounding
the ideal schedule down) third entry `⌊5 · 1.1²⌋ = ⌊6.05⌋ = 6 ≠ 5`. -/
theorem connect_sleeps_not_geometric :
    (OpcUaDriver.connect OpcUaDriver.new cexDriverConfig allFailOutcome).2.2.sleeps
      = [5, 5, 5] ∧
    ¬ ((5 : ℚ) * mkRat 11 10 = 5) ∧
    (Int.floor ((5 : ℚ) * mkRat 11 10 * mkRat 11 10)).toNat = 6 := by
  refine ⟨by decide, ?_, ?_⟩
  · rw [Rat.mkRat_eq_div]
    norm_num
  · have h1 : (5 : ℚ) * mkRat 11 10 * mkRat 11 10 = 121 / 20 := by
      rw [Rat.mkRat_eq_div]
      norm_num
    rw [h1]
    have h2 : Int.floor ((121 : ℚ) / 20) = 6 := by
      rw [Int.floor_eq_iff]
      norm_num
    rw [h2]
    rfl

/-! ## C10 — the result map of `read_tags` is keyed by distinct addresses -/

theorem mem_alInsert_keys {V : Type} (m : List (String × V)) (k : String) (v : V)
    (a : String) :
    (a ∈ (alInsert m k v).map Prod.fst) ↔ (a ∈ m.map Prod.fst ∨ a = k) := by
  rw [alInsert_keys]
  by_cases hk : k ∈ m.map Prod.fst
  · simp only [hk, if_true]
    constructor
    · exact fun h => Or.inl h
    · rintro (h | h)
      · exact h
      · subst h
        exact hk
  · simp [hk, List.mem_append]

theorem foldl_alInsert_keys_nodup {V : Type} (pairs : List (String × V))
    (acc : List (String × V)) (h : (acc.map Prod.fst).Nodup) :
    ((pairs.foldl (fun m p => alInsert m p.1 p.2) acc).map Prod.fst).Nodup := by
  induction pairs generalizing acc with
  | nil => simpa using h
  | cons p rest ih =>
    exact ih (alInsert acc p.1 p.2) (alInsert_keys_nodup acc p.1 p.2 h)

theorem mem_foldl_alInsert_keys {V : Type} (pairs : List (String × V))
    (acc : List (String × V)) (a : String) :
    (a ∈ (pairs.foldl (fun m p => alInsert m p.1 p.2) acc).map Prod.fst)
      ↔ (a ∈ acc.map Prod.fst ∨ a ∈ pairs.map Prod.fst) := by
  induction pairs generalizing acc with
  | nil => simp
  | cons p rest ih =>
    rw [List.foldl_cons, ih (alInsert acc p.1 p.2), mem_alInsert_keys]
    simp only [List.map_cons, List.mem_cons]
    tauto

theorem alLookup_foldl_alInsert {V : Type} (pairs : List (String × V))
    (acc : List (String × V)) (a : String) :
    alLookup (pairs.foldl (fun m p => alInsert m p.1 p.2) acc) a
      = match pairs.reverse.find? (fun p => p.1 = a) with
        | some q => some q.2
        | none => alLookup acc a := by
  induction pairs generalizing acc with
  | nil => simp
  | cons p rest ih =>
    rw [List.foldl_cons, ih (alInsert acc p.1 p.2), List.reverse_cons, List.find?_append]
    cases hfind : rest.reverse.find? (fun p => decide (p.1 = a)) with
    | some q => simp [hfind, Option.or]
    | none =>
      simp only [hfind, Option.none_or]
      rw [alLookup_alInsert]
      by_cases hap : a = p.1
      · subst hap
        simp [List.find?]
      · have hap' : ¬ p.1 = a := fun hh => hap hh.symm
        simp [List.find?, hap, hap']

/-- C10: a successful `read_tags` call answered with one data value per
request returns a map keyed by address with pairwise-distinct keys: its
size is the number of distinct requested addresses, not the length of the
request list, and each address maps to the converted value paired with its
last occurrence in the request list (later duplicates overwrite earlier
ones). -/
theorem read_tags_keyed_by_distinct_addresses
    (sessionRead : List NodeId → Except String (List DataValue))
    (tags : List TagRequest) (now : Nat) (ids : List NodeId)
    (dvs : List DataValue) (m : List (String × TagValue))
    (hids : OpcUaDriver.buildReadIds tags = Except.ok ids)
    (hread : sessionRead ids = Except.ok dvs)
    (hlen : dvs.length = tags.length)
    (hm : OpcUaDriver.read_tags (some ()) sessionRead tags now = Except.ok m) :
    (m.map Prod.fst).Nodup ∧
    m.length = ((tags.map TagRequest.address).dedup).length ∧
    (∀ a, alLookup m a
      = ((tags.zip dvs).reverse.find? (fun p => p.1.address = a)).map
          (fun p => OpcUaDriver.data_value_to_tag_value p.2 now)) := by
  have hmval : m = ((tags.zip dvs).map
        (fun p => (p.1.address, OpcUaDriver.data_value_to_tag_value p.2 now))).foldl
      (fun acc p => alInsert acc p.1 p.2) [] := by
    rw [OpcUaDriver.read_tags] at hm
    simp only [hids, hread] at hm
    rw [List.foldl_map]
    exact (Except.ok.injEq _ _ ▸ hm).symm
  set pairs := (tags.zip dvs).map
      (fun p => (p.1.address, OpcUaDriver.data_value_to_tag_value p.2 now)) with hpairs
  have hkeys : pairs.map Prod.fst = tags.map TagRequest.address := by
    rw [hpairs, List.map_map]
    have : (Prod.fst ∘ fun p : TagRequest × DataValue =>
          (p.1.address, OpcUaDriver.data_value_to_tag_value p.2 now))
        = TagRequest.address ∘ Prod.fst := rfl
    rw [this, ← List.map_map]
    congr 1
    exact List.map_fst_zip tags dvs (le_of_eq hlen.symm)
  refine ⟨?_, ?_, ?_⟩
  · rw [hmval]
    exact foldl_alInsert_keys_nodup pairs [] (by simp)
  · have h1 : m.length = (m.map Prod.fst).length := (List.length_map m Prod.fst).symm
    have hnd : (m.map Prod.fst).Nodup := by
      rw [hmval]
      exact foldl_alInsert_keys_nodup pairs [] (by simp)
    have hmem : ∀ a, a ∈ m.map Prod.fst ↔ a ∈ (tags.map TagRequest.address).dedup := by
      intro a
      rw [hmval, mem_foldl_alInsert_keys, hkeys, List.mem_dedup]
      simp
    have hperm : (m.map Prod.fst).Perm (tags.map TagRequest.address).dedup :=
      (List.perm_ext_iff_of_nodup hnd (List.nodup_dedup _)).mpr hmem
    rw [h1, hperm.length_eq]
  · intro a
    rw [hmval, alLookup_foldl_alInsert]
    rw [hpairs, ← List.map_reverse, List.find?_map]
    have hpred : ((fun p : String × TagValue => decide (p.1 = a)) ∘
          (fun p : TagRequest × DataValue =>
            (p.1.address, OpcUaDriver.data_value_to_tag_value p.2 now)))
        = (fun p : TagRequest × DataValue => decide (p.1.address = a)) := rfl
    rw [hpred]
    cases hfind : (tags.zip dvs).reverse.find?
        (fun p => decide (p.1.address = a)) with
    | some q => simp [hfind]
    | none => simp [hfind, alLookup]

/-- Requests with a duplicated address, used by the C10 witness. -/
def witReqTags : List TagRequest := [⟨"ns=1;i=1"⟩, ⟨"ns=1;i=2"⟩, ⟨"ns=1;i=1"⟩]

/-- Data values answering the C10 witness requests positionally. -/
def witDvs : List DataValue :=
  [⟨some ⟨true⟩, some (Variant.Int32 10)⟩,
   ⟨some ⟨true⟩, some (Variant.Int32 20)⟩,
   ⟨some ⟨true⟩, some (Variant.Int32 30)⟩]

/-- A session read answering every batch with the three witness values. -/
def dupRead : List NodeId → Except String (List DataValue) :=
  fun _ => Except.ok witDvs

theorem read_tags_keyed_by_distinct_addresses_witness :
    OpcUaDriver.read_tags (some ()) dupRead witReqTags 0
      = Except.ok [("ns=1;i=1", TagValue.new (ValueVariant.Int 30) Quality.Good 0),
                   ("ns=1;i=2", TagValue.new (ValueVariant.Int 20) Quality.Good 0)] ∧
    [("ns=1;i=1", TagValue.new (ValueVariant.Int 30) Quality.Good 0),
     ("ns=1;i=2", TagValue.new (ValueVariant.Int 20) Quality.Good 0)].length = 2 ∧
    ((witReqTags.map TagRequest.address).dedup).length = 2 ∧
    alLookup [("ns=1;i=1", TagValue.new (ValueVariant.Int 30) Quality.Good 0),
              ("ns=1;i=2", TagValue.new (ValueVariant.Int 20) Quality.Good 0)] "ns=1;i=1"
      = some (TagValue.new (ValueVariant.Int 30) Quality.Good 0) := by
  have h := read_tags_keyed_by_distinct_addresses dupRead witReqTags 0
    [⟨1, Identifier.Numeric 1⟩, ⟨1, Identifier.Numeric 2⟩, ⟨1, Identifier.Numeric 1⟩]
    witDvs
    [("ns=1;i=1", TagValue.new (ValueVariant.Int 30) Quality.Good 0),
     ("ns=1;i=2", TagValue.new (ValueVariant.Int 20) Quality.Good 0)]
    rfl rfl rfl rfl
  refine ⟨rfl, ?_, by decide, (h.2.2 "ns=1;i=1").trans (by decide)⟩
  exact h.2.1.trans (by decide)

end ForgeIO
